import Mathlib

/-!
# Verification of the deduplicating asynchronous job engine

Shallow embedding of the search-orchestration layer of the repository
(`app/services/search_service.py`, `app/cache.py`,
`core/services/database_service.py`).

Modelling choices:

* The payload returned by the upstream computation is opaque; we model it
  as a `String`.
* Timestamps (`datetime.now()`) are modelled by a logical clock (a `Nat`
  counter held in the engine state) that is bumped at each operation, so
  later calls observe larger timestamps.
* The SHA-256 hex digest (`hashlib.sha256(...).hexdigest()`) is an
  external library function; it is a parameter `hash : String → String`
  of the engine model.
* The Redis hash `"searches"` is modelled as a map from field key to
  stored entry.  The stored serialized value is either a well-formed Job
  record (every value the engine itself serializes) or an arbitrary
  string that fails to decode (`StoredVal.raw`), modelling a corrupted
  entry; `json.loads` is `jsonLoads`, returning `Except`.
* Background execution (`asyncio.create_task` + the coroutine
  `_execute_search_background`) is modelled by a task registry in the
  state plus an explicit `Op.run` step that runs a registered task
  atomically to completion; the outcome of
  `loop.run_in_executor(None, mock_api, query)` is a parameter
  `Except String ApiResult` (result or raised exception).
-/

/-- Opaque payload produced by the upstream computation. -/
abbrev ApiResult := String

/-- The per-key Job record serialized into the cache store.  Field names
follow the dictionaries built in `start_search` and
`_execute_search_background`; absent JSON keys are `none`. -/
structure Job where
  query : String
  result : Option ApiResult := none
  status : String
  timestamp : Nat
  completed_at : Option Nat := none
  error : Option String := none
  deriving Repr, DecidableEq

/-- A serialized value held in the cache store: either a decodable Job
record or a malformed string. -/
inductive StoredVal where
  | job (j : Job)
  | raw (s : String)
  deriving Repr, DecidableEq

/-- `json.loads` on a stored value: succeeds exactly on well-formed
records, raises (returns `.error`) on malformed ones. -/
def jsonLoads : StoredVal → Except String Job
  | .job j => .ok j
  | .raw s => .error ("Expecting value: " ++ s)

/-- An entry of the TTL cache store: the stored value together with its
insertion time. -/
structure CacheEntry where
  val : StoredVal
  insertedAt : Nat
  deriving Repr, DecidableEq

/-- Modelled from the spec: the TTL Cache Store read used by the engine
(`request_cache.hget`).  The method is referenced by the engine but not
defined in `app/cache.py`; per §4.2 of the spec, `get` on an entry whose
expiry window has passed behaves as absent. -/
def hget (cache : String → Option CacheEntry) (now ttl : Nat)
    (field : String) : Option StoredVal :=
  match cache field with
  | some e => if now - e.insertedAt < ttl then some e.val else none
  | none => none

/-- Modelled from the spec: the TTL Cache Store write used by the engine
(`request_cache.hset`).  Per §4.2 of the spec, `set` stores the value and
resets the expiry window. -/
def hset (cache : String → Option CacheEntry) (now : Nat) (field : String)
    (v : StoredVal) : String → Option CacheEntry :=
  fun k => if k = field then some ⟨v, now⟩ else cache k

/-- A handle in the in-flight registry (`SearchService._background_tasks`):
the running background execution for one key.  `done` mirrors
`task.done()`; the arguments bound at `asyncio.create_task` time are the
query and the launch timestamp. -/
structure TaskEntry where
  query : String
  startTime : Nat
  done : Bool
  deriving Repr, DecidableEq

/-- The engine state: the `"searches"` cache hash, the in-flight registry
and the logical clock. -/
structure EngineState where
  cache : String → Option CacheEntry
  tasks : String → Option TaskEntry
  clock : Nat

/-- A response dictionary returned by `start_search` / `get_search_status`;
keys that a branch does not set are `none`. -/
structure Response where
  task_id : Option String := none
  status : String
  message : Option String := none
  result : Option ApiResult := none
  from_cache : Option Bool := none
  error : Option String := none
  query : Option String := none
  timestamp : Option Nat := none
  completed_at : Option Nat := none
  deriving Repr, DecidableEq

/-- The launch tail of `start_search` (lines 66-91): record the in-flight
task, write the fresh pending Job, return the started response. -/
def launchSearch (query query_hash : String) (st : EngineState) :
    Response × EngineState :=
  let current_time := st.clock
  let tasks2 : String → Option TaskEntry :=
    fun k => if k = query_hash then some ⟨query, current_time, false⟩
             else st.tasks k
  let pending : Job :=
    { query := query, result := none, status := "pending",
      timestamp := current_time }
  let cache2 := hset st.cache current_time query_hash (.job pending)
  ({ task_id := some query_hash, status := "pending",
     message := some "Search started successfully",
     from_cache := some false },
   { cache := cache2, tasks := tasks2, clock := current_time + 1 })

/-- The in-flight check of `start_search` (lines 55-64): if a not-done
task is registered for the key, return pending without new work,
otherwise fall through to the launch tail. -/
def inflightCheck (query query_hash : String) (st : EngineState) :
    Response × EngineState :=
  match st.tasks query_hash with
  | some task =>
      if !task.done then
        ({ task_id := some query_hash, status := "pending",
           message := some "Search is already in progress",
           from_cache := some false }, st)
      else launchSearch query query_hash st
  | none => launchSearch query query_hash st

/-- `SearchService.start_search(query, force_refresh)`.  `hash` is the
SHA-256 hex digest function, `ttl` the cache store's TTL.  A decode
failure of a cached value propagates to the surrounding `except`, which
returns the failed-to-start response. -/
def startSearch (hash : String → String) (ttl : Nat) (query : String)
    (force_refresh : Bool) (st : EngineState) : Response × EngineState :=
  let query_hash := hash query
  if force_refresh then inflightCheck query query_hash st
  else
    match hget st.cache st.clock ttl query_hash with
    | some cached_value =>
        match jsonLoads cached_value with
        | .ok cached_data =>
            if cached_data.status = "completed" then
              ({ task_id := some query_hash, status := "completed",
                 result := cached_data.result, from_cache := some true }, st)
            else inflightCheck query query_hash st
        | .error e =>
            ({ task_id := some query_hash, status := "failed",
               error := some "Failed to start search",
               message := some e }, st)
    | none => inflightCheck query query_hash st

/-- `SearchService._execute_search_background` run to completion:
on success write the completed Job, on exception write the failed Job;
the `finally` clause unconditionally removes the in-flight registry
entry on either path.  The database mirror on the success path only
touches durable storage (modelled separately) and swallows its own
errors, so it does not alter the engine state. -/
def executeSearchBackground (query query_hash : String) (start_time : Nat)
    (outcome : Except String ApiResult) (st : EngineState) : EngineState :=
  let st1 :=
    match outcome with
    | .ok result =>
        let completed : Job :=
          { query := query, result := some result, status := "completed",
            timestamp := start_time, completed_at := some st.clock }
        { st with cache := hset st.cache st.clock query_hash (.job completed),
                  clock := st.clock + 1 }
    | .error e =>
        let failed : Job :=
          { query := query, result := none, status := "failed",
            timestamp := start_time, completed_at := some st.clock,
            error := some e }
        { st with cache := hset st.cache st.clock query_hash (.job failed),
                  clock := st.clock + 1 }
  { st1 with tasks := fun k => if k = query_hash then none else st1.tasks k }

/-- `SearchService.get_search_status(task_id)`: read the cache entry,
decode it, shape the response by status; a decode failure is caught by
the `except` clause, which returns the error response.  The state is
returned unchanged alongside the response to make the absence of writes
explicit. -/
def getSearchStatus (ttl : Nat) (task_id : String) (st : EngineState) :
    Response × EngineState :=
  match hget st.cache st.clock ttl task_id with
  | none =>
      ({ task_id := some task_id, status := "not_found",
         message := some "Search task not found" }, st)
  | some cached_value =>
      match jsonLoads cached_value with
      | .ok result =>
          if result.status = "completed" then
            ({ task_id := some task_id, status := result.status,
               query := some result.query,
               timestamp := some result.timestamp,
               result := result.result,
               completed_at := result.completed_at }, st)
          else if result.status = "failed" then
            ({ task_id := some task_id, status := result.status,
               query := some result.query,
               timestamp := some result.timestamp,
               error := result.error,
               completed_at := result.completed_at }, st)
          else
            ({ task_id := some task_id, status := result.status,
               query := some result.query,
               timestamp := some result.timestamp }, st)
      | .error e =>
          ({ task_id := some task_id, status := "error",
             message := some e }, st)

/-- Operations of the engine, for the small-step reachability model. -/
inductive Op where
  | start (query : String) (force_refresh : Bool)
  | run (key : String) (outcome : Except String ApiResult)
  | status (task_id : String)

/-- One step of the engine: a `start` call, the completion of a
registered background task, or a `status` poll. -/
def step (hash : String → String) (ttl : Nat) (st : EngineState) :
    Op → EngineState
  | .start q frc => (startSearch hash ttl q frc st).2
  | .run key outcome =>
      match st.tasks key with
      | some t =>
          if t.done then st
          else executeSearchBackground t.query key t.startTime outcome st
      | none => st
  | .status tid => (getSearchStatus ttl tid st).2

/-- The initial engine state: empty cache, empty registry, clock zero. -/
def initState : EngineState :=
  { cache := fun _ => none, tasks := fun _ => none, clock := 0 }

/-- States reachable by some sequence of engine operations. -/
def Reachable (hash : String → String) (ttl : Nat) (st : EngineState) :
    Prop :=
  ∃ ops : List Op, st = ops.foldl (step hash ttl) initState

/-- A row of the durable `search_requests` table
(`SearchRequest(id, task_id, query, result, status, created_at,
completed_at)`); the owning task id (a UUID) is modelled as a `Nat`,
`result` holds the serialized payload. -/
structure SearchRequestRow where
  id : String
  task_id : Nat
  query : String
  result : String
  status : String
  created_at : Nat
  completed_at : Option Nat
  deriving Repr, DecidableEq

/-- `DatabaseService.store_search_request` (core variant): look up an
existing row with the same `(id, task_id)` pair; if found return it and
leave the table unchanged, otherwise insert a fresh row.  Durable storage
is the list of rows; `.first()` is `List.find?`. -/
def storeSearchRequest (db : List SearchRequestRow) (query_hash : String)
    (task_id : Nat) (query : String) (result : String) (status : String)
    (now : Nat) : Option SearchRequestRow × List SearchRequestRow :=
  match db.find? (fun r => r.id == query_hash && r.task_id == task_id) with
  | some existing => (some existing, db)
  | none =>
      let request : SearchRequestRow :=
        { id := query_hash, task_id := task_id, query := query,
          result := result, status := status, created_at := now,
          completed_at := if status = "completed" then some now else none }
      (some request, db ++ [request])

/-! ## Basic cache store lemmas -/

theorem hget_hset_self (cache : String → Option CacheEntry)
    (now now2 ttl : Nat) (k : String) (v : StoredVal) :
    hget (hset cache now k v) now2 ttl k =
      if now2 - now < ttl then some v else none := by
  simp [hget, hset]

theorem hget_hset_ne (cache : String → Option CacheEntry)
    (now now2 ttl : Nat) (k k2 : String) (v : StoredVal) (h : k2 ≠ k) :
    hget (hset cache now k v) now2 ttl k2 = hget cache now2 ttl k2 := by
  simp [hget, hset, h]

theorem hget_mono (cache : String → Option CacheEntry) (c ttl : Nat)
    (k : String) (v : StoredVal)
    (h : hget cache (c + 1) ttl k = some v) : hget cache c ttl k = some v := by
  simp only [hget] at h ⊢
  split at h
  next e heq =>
    split at h
    next hlt =>
      rw [if_pos (by omega)]
      exact h
    next hlt => exact Option.noConfusion h
  next heq => exact Option.noConfusion h

/-! ## Shapes of the engine operations -/

theorem getSearchStatus_snd (ttl : Nat) (tid : String) (st : EngineState) :
    (getSearchStatus ttl tid st).2 = st := by
  unfold getSearchStatus
  split
  · rfl
  · split
    · split
      · rfl
      · split <;> rfl
    · rfl

theorem startSearch_cases (hash : String → String) (ttl : Nat)
    (q : String) (frc : Bool) (st : EngineState) :
    (startSearch hash ttl q frc st).2 = st ∨
    startSearch hash ttl q frc st = launchSearch q (hash q) st := by
  unfold startSearch inflightCheck
  cases frc with
  | true =>
      simp only [if_true]
      split
      · split
        · exact Or.inl rfl
        · exact Or.inr rfl
      · exact Or.inr rfl
  | false =>
      simp only [Bool.false_eq_true, if_false]
      split
      · split
        · split
          · exact Or.inl rfl
          · split
            · split
              · exact Or.inl rfl
              · exact Or.inr rfl
            · exact Or.inr rfl
        · exact Or.inl rfl
      · split
        · split
          · exact Or.inl rfl
          · exact Or.inr rfl
        · exact Or.inr rfl

/-! ## The engine invariant

Registered in-flight tasks are never done, were launched strictly before
the current clock, and any decodable cache-visible Job at a key with an
in-flight task is still pending. -/

structure EngineInv (ttl : Nat) (st : EngineState) : Prop where
  tasksActive : ∀ k t, st.tasks k = some t →
    t.done = false ∧ t.startTime < st.clock
  pendingWhileInflight : ∀ k t j, st.tasks k = some t →
    hget st.cache st.clock ttl k = some (.job j) → j.status = "pending"

theorem EngineInv_initState (ttl : Nat) : EngineInv ttl initState := by
  constructor
  · intro k t h; exact Option.noConfusion h
  · intro k t j h; exact absurd h (by simp [initState])

theorem EngineInv_launchSearch (ttl : Nat) (q kh : String)
    (st : EngineState) (hst : EngineInv ttl st) :
    EngineInv ttl (launchSearch q kh st).2 := by
  obtain ⟨h0, h1⟩ := hst
  simp only [launchSearch]
  constructor
  · intro k t ht
    simp only at ht
    by_cases hk : k = kh
    · rw [if_pos hk] at ht
      simp only [Option.some.injEq] at ht
      subst ht
      exact ⟨rfl, Nat.lt_succ_self _⟩
    · rw [if_neg hk] at ht
      obtain ⟨hd, hlt⟩ := h0 k t ht
      exact ⟨hd, Nat.lt_succ_of_lt hlt⟩
  · intro k t j ht hj
    simp only at ht hj
    by_cases hk : k = kh
    · subst hk
      rw [hget_hset_self] at hj
      split at hj
      · simp only [Option.some.injEq, StoredVal.job.injEq] at hj
        subst hj
        rfl
      · exact Option.noConfusion hj
    · rw [if_neg hk] at ht
      rw [hget_hset_ne _ _ _ _ _ _ _ hk] at hj
      exact h1 k t j ht (hget_mono _ _ _ _ _ hj)

theorem EngineInv_executeSearchBackground (ttl : Nat) (q kh : String)
    (stt : Nat) (oc : Except String ApiResult) (st : EngineState)
    (hst : EngineInv ttl st) :
    EngineInv ttl (executeSearchBackground q kh stt oc st) := by
  obtain ⟨h0, h1⟩ := hst
  have key : ∀ (v : StoredVal),
      EngineInv ttl ⟨hset st.cache st.clock kh v,
               fun k => if k = kh then none else st.tasks k,
               st.clock + 1⟩ := by
    intro v
    constructor
    · intro k t ht
      simp only at ht
      by_cases hk : k = kh
      · rw [if_pos hk] at ht; exact Option.noConfusion ht
      · rw [if_neg hk] at ht
        obtain ⟨hd, hlt⟩ := h0 k t ht
        exact ⟨hd, Nat.lt_succ_of_lt hlt⟩
    · intro k t j ht hj
      simp only at ht hj
      by_cases hk : k = kh
      · rw [if_pos hk] at ht; exact Option.noConfusion ht
      · rw [if_neg hk] at ht
        rw [hget_hset_ne _ _ _ _ _ _ _ hk] at hj
        exact h1 k t j ht (hget_mono _ _ _ _ _ hj)
  cases oc with
  | ok r => exact key _
  | error e => exact key _

theorem EngineInv_step (hash : String → String) (ttl : Nat)
    (st : EngineState) (op : Op) (hst : EngineInv ttl st) :
    EngineInv ttl (step hash ttl st op) := by
  cases op with
  | start q frc =>
      show EngineInv ttl (startSearch hash ttl q frc st).2
      rcases startSearch_cases hash ttl q frc st with h | h
      · rw [h]; exact hst
      · rw [h]; exact EngineInv_launchSearch ttl q (hash q) st hst
  | run key oc =>
      show EngineInv ttl (match st.tasks key with
        | some t => if t.done then st
            else executeSearchBackground t.query key t.startTime oc st
        | none => st)
      cases ht : st.tasks key with
      | none => exact hst
      | some t =>
          by_cases hd : t.done
          · simp only [hd, if_true]
            exact hst
          · simp only [hd, if_false, Bool.false_eq_true]
            exact EngineInv_executeSearchBackground ttl t.query key
              t.startTime oc st hst
  | status tid =>
      show EngineInv ttl (getSearchStatus ttl tid st).2
      rw [getSearchStatus_snd]
      exact hst

theorem EngineInv_foldl (hash : String → String) (ttl : Nat)
    (ops : List Op) :
    ∀ st : EngineState, EngineInv ttl st →
      EngineInv ttl (ops.foldl (step hash ttl) st) := by
  induction ops with
  | nil => intro st h; exact h
  | cons op rest ih =>
      intro st h
      exact ih (step hash ttl st op) (EngineInv_step hash ttl st op h)

theorem Reachable_EngineInv (hash : String → String) (ttl : Nat)
    (st : EngineState) (h : Reachable hash ttl st) : EngineInv ttl st := by
  obtain ⟨ops, rfl⟩ := h
  exact EngineInv_foldl hash ttl ops initState (EngineInv_initState ttl)

/-! ## Claim theorems -/

/-- C6: for every launched background execution, the in-flight registry
entry for its key is removed when the execution finishes, on every exit
path (success or failure of the upstream computation; the removal is the
unconditional `finally` clause of `_execute_search_background`), so no
registry entry for the launch remains afterwards. -/
theorem C6_registry_entry_removed (q kh : String) (stt : Nat)
    (oc : Except String ApiResult) (st : EngineState) :
    (executeSearchBackground q kh stt oc st).tasks kh = none := by
  cases oc <;> simp [executeSearchBackground]

/-- C2: when a background execution ends, it writes a terminal Job into
the cache store under its key: on success a completed Job carrying the
result and `completed_at`, on any exception a failed Job carrying the
error and `completed_at`; on every outcome the stored Job is terminal
(never pending) with `completed_at` set. -/
theorem C2_terminal_write (q kh : String) (stt : Nat) (st : EngineState) :
    (∀ r : ApiResult,
      (executeSearchBackground q kh stt (.ok r) st).cache kh =
        some ⟨.job { query := q, result := some r, status := "completed",
                     timestamp := stt, completed_at := some st.clock },
              st.clock⟩) ∧
    (∀ e : String,
      (executeSearchBackground q kh stt (.error e) st).cache kh =
        some ⟨.job { query := q, result := none, status := "failed",
                     timestamp := stt, completed_at := some st.clock,
                     error := some e }, st.clock⟩) ∧
    (∀ oc : Except String ApiResult, ∃ j : Job,
      (executeSearchBackground q kh stt oc st).cache kh =
        some ⟨.job j, st.clock⟩ ∧
      j.status ≠ "pending" ∧ (j.completed_at).isSome = true) := by
  refine ⟨?_, ?_, ?_⟩
  · intro r
    simp [executeSearchBackground, hset]
  · intro e
    simp [executeSearchBackground, hset]
  · intro oc
    cases oc with
    | ok r =>
        exact ⟨{ query := q, result := some r, status := "completed",
                 timestamp := stt, completed_at := some st.clock },
               by simp [executeSearchBackground, hset], by simp, rfl⟩
    | error e =>
        exact ⟨{ query := q, result := none, status := "failed",
                 timestamp := stt, completed_at := some st.clock,
                 error := some e },
               by simp [executeSearchBackground, hset], by simp, rfl⟩

/-- C7: `store_search_request` is idempotent on the `(digest id, owning
task id)` pair: if durable storage already holds a row with that pair,
the store returns the existing row and leaves the table unchanged; only
when no such pair exists is a fresh row inserted. -/
theorem C7_store_idempotent (db : List SearchRequestRow)
    (query_hash : String) (task_id : Nat) (q res s : String) (now : Nat) :
    (∀ row,
      db.find? (fun r => r.id == query_hash && r.task_id == task_id) =
        some row →
      storeSearchRequest db query_hash task_id q res s now = (some row, db)) ∧
    (db.find? (fun r => r.id == query_hash && r.task_id == task_id) = none →
      (storeSearchRequest db query_hash task_id q res s now).2 =
        db ++ [{ id := query_hash, task_id := task_id, query := q,
                 result := res, status := s, created_at := now,
                 completed_at :=
                   if s = "completed" then some now else none }]) := by
  constructor
  · intro row hrow
    simp [storeSearchRequest, hrow]
  · intro hnone
    simp [storeSearchRequest, hnone]

/-- C7 witness data: a one-row durable table already holding the pair
`("h", 1)`. -/
def storedRow : SearchRequestRow :=
  { id := "h", task_id := 1, query := "q", result := "r",
    status := "completed", created_at := 0, completed_at := some 0 }

/-- C7 witness: re-storing the pair already present in a one-row table
returns that row and leaves the table unchanged. -/
theorem C7_store_idempotent_witness :
    storeSearchRequest [storedRow] "h" 1 "q2" "r2" "completed" 5 =
      (some storedRow, [storedRow]) :=
  (C7_store_idempotent [storedRow] "h" 1 "q2" "r2" "completed" 5).1
    storedRow (by decide)

/-- C10: even with `force_refresh = true`, if an unfinished in-flight
execution exists for the key, `start` returns the existing pending
handle (same task id) and changes no state — the in-flight check runs
regardless of `force_refresh`. -/
theorem C10_force_refresh_inflight (hash : String → String) (ttl : Nat)
    (q : String) (st : EngineState) (t : TaskEntry)
    (ht : st.tasks (hash q) = some t) (hd : t.done = false) :
    startSearch hash ttl q true st =
      ({ task_id := some (hash q), status := "pending",
         message := some "Search is already in progress",
         from_cache := some false }, st) := by
  simp [startSearch, inflightCheck, ht, hd]

/-- C10 witness: a state with one unfinished in-flight task for key
`"q10"`. -/
def st10 : EngineState :=
  { cache := fun _ => none,
    tasks := fun k => if k = "q10" then some ⟨"q10", 0, false⟩ else none,
    clock := 1 }

/-- C10 witness: `start` with `force_refresh = true` on `st10` returns
the existing pending handle and leaves the state unchanged. -/
theorem C10_force_refresh_inflight_witness :
    startSearch (fun s => s) 3000 "q10" true st10 =
      ({ task_id := some "q10", status := "pending",
         message := some "Search is already in progress",
         from_cache := some false }, st10) :=
  C10_force_refresh_inflight (fun s => s) 3000 "q10" st10
    ⟨"q10", 0, false⟩ (by decide) rfl

/-- C3 counterexample data: a store whose entry under `"deadbeef"` is
not valid JSON. -/
def corruptState : EngineState :=
  { cache := fun k => if k = "deadbeef"
        then some ⟨.raw "not json", 0⟩ else none,
    tasks := fun _ => none,
    clock := 1 }

/-- C3 counterexample: with a stored entry that fails to decode,
`get_search_status` returns the distinct status `"error"` (the generic
exception handler), not `"not_found"` as the claim states. -/
theorem C3_counterexample :
    (getSearchStatus 3000 "deadbeef" corruptState).1.status = "error" ∧
    (getSearchStatus 3000 "deadbeef" corruptState).1.status ≠
      "not_found" := by
  decide

/-- C3 (amended): if `status(task_id)` finds a stored entry that fails
to decode as a Job, the call returns the distinct status `"error"`
together with the decode exception message; it does not raise and does
not mutate any state. -/
theorem C3_malformed_returns_error (ttl : Nat) (tid s : String)
    (st : EngineState)
    (h : hget st.cache st.clock ttl tid = some (.raw s)) :
    getSearchStatus ttl tid st =
      ({ task_id := some tid, status := "error",
         message := some ("Expecting value: " ++ s) }, st) := by
  simp [getSearchStatus, h, jsonLoads]

/-- C3 witness: the amended behaviour on the corrupted store. -/
theorem C3_malformed_returns_error_witness :
    getSearchStatus 3000 "deadbeef" corruptState =
      ({ task_id := some "deadbeef", status := "error",
         message := some "Expecting value: not json" }, corruptState) :=
  C3_malformed_returns_error 3000 "deadbeef" "not json" corruptState
    (by decide)

/-- C4: `status(task_id)` is a pure read: it never mutates the cache
store, the in-flight registry or the clock; it returns `not_found` when
no Job is stored under the id (in particular for any id never returned
by `start`), and otherwise returns the Job's status with its query and
timestamp, adding result and `completed_at` when completed, and error
and `completed_at` when failed. -/
theorem C4_status_pure_read (ttl : Nat) (tid : String) (st : EngineState) :
    (getSearchStatus ttl tid st).2 = st ∧
    (hget st.cache st.clock ttl tid = none →
      (getSearchStatus ttl tid st).1 =
        { task_id := some tid, status := "not_found",
          message := some "Search task not found" }) ∧
    (∀ j : Job, hget st.cache st.clock ttl tid = some (.job j) →
      (getSearchStatus ttl tid st).1 =
        if j.status = "completed" then
          { task_id := some tid, status := j.status, query := some j.query,
            timestamp := some j.timestamp, result := j.result,
            completed_at := j.completed_at }
        else if j.status = "failed" then
          { task_id := some tid, status := j.status, query := some j.query,
            timestamp := some j.timestamp, error := j.error,
            completed_at := j.completed_at }
        else
          { task_id := some tid, status := j.status, query := some j.query,
            timestamp := some j.timestamp }) := by
  refine ⟨getSearchStatus_snd ttl tid st, ?_, ?_⟩
  · intro h
    simp [getSearchStatus, h]
  · intro j hj
    simp only [getSearchStatus, hj, jsonLoads]
    split
    · rfl
    · split <;> rfl

/-- C4 witness data: a store holding one completed Job under `"k4"`. -/
def completedState : EngineState :=
  { cache := fun k => if k = "k4"
        then some ⟨.job { query := "q4", result := some "r4",
                          status := "completed", timestamp := 0,
                          completed_at := some 1 }, 1⟩
        else none,
    tasks := fun _ => none,
    clock := 2 }

/-- C4 witness: on `completedState`, a poll of an unknown id returns
`not_found`, a poll of `"k4"` returns the completed Job's data, and
neither mutates the state. -/
theorem C4_status_pure_read_witness :
    (getSearchStatus 3000 "zzz" completedState).1 =
      { task_id := some "zzz", status := "not_found",
        message := some "Search task not found" } ∧
    (getSearchStatus 3000 "k4" completedState).1 =
      { task_id := some "k4", status := "completed",
        query := some "q4", timestamp := some 0, result := some "r4",
        completed_at := some 1 } ∧
    (getSearchStatus 3000 "k4" completedState).2 = completedState :=
  ⟨(C4_status_pure_read 3000 "zzz" completedState).2.1 (by decide),
   by
     have h := (C4_status_pure_read 3000 "k4" completedState).2.2
       { query := "q4", result := some "r4", status := "completed",
         timestamp := 0, completed_at := some 1 } (by decide)
     simpa using h,
   (C4_status_pure_read 3000 "k4" completedState).1⟩

/-- C5: for a key whose stored Job is terminal (completed or failed),
`start(query, force_refresh=true)` does not return the cached result: it
writes a fresh pending Job that fully replaces the old one (the new
cache entry is exactly the fresh pending record) and registers exactly
one new background execution, regardless of TTL freshness of the old
result.  Reachability supplies the engine invariant that a terminal
visible Job has no unfinished in-flight task (the execution that wrote
it deregistered itself). -/
theorem C5_force_refresh_replaces (hash : String → String) (ttl : Nat)
    (q : String) (st : EngineState) (j : Job)
    (hre : Reachable hash ttl st)
    (hj : hget st.cache st.clock ttl (hash q) = some (.job j))
    (hterm : j.status = "completed" ∨ j.status = "failed") :
    startSearch hash ttl q true st =
      ({ task_id := some (hash q), status := "pending",
         message := some "Search started successfully",
         from_cache := some false },
       { cache := hset st.cache st.clock (hash q)
           (.job { query := q, result := none, status := "pending",
                   timestamp := st.clock }),
         tasks := fun k => if k = hash q then some ⟨q, st.clock, false⟩
                  else st.tasks k,
         clock := st.clock + 1 }) := by
  have hinv := Reachable_EngineInv hash ttl st hre
  have hnone : st.tasks (hash q) = none := by
    cases htk : st.tasks (hash q) with
    | none => rfl
    | some t =>
        have hp := hinv.pendingWhileInflight (hash q) t j htk hj
        rcases hterm with h | h
        · rw [hp] at h; exact absurd h (by decide)
        · rw [hp] at h; exact absurd h (by decide)
  simp [startSearch, inflightCheck, hnone, launchSearch]

/-- C5 witness data: the operations that complete one search for the
query `"a"`. -/
def ops5 : List Op := [Op.start "a" false, Op.run "a" (Except.ok "r")]

/-- C5 witness data: the state after one completed search for `"a"`. -/
def refreshState : EngineState :=
  List.foldl (step (fun s => s) 3000) initState ops5

/-- C5 witness: forcing a refresh on the completed key `"a"` launches a
fresh pending Job that fully replaces the completed one. -/
theorem C5_force_refresh_replaces_witness :
    startSearch (fun s => s) 3000 "a" true refreshState =
      ({ task_id := some "a", status := "pending",
         message := some "Search started successfully",
         from_cache := some false },
       { cache := hset refreshState.cache refreshState.clock "a"
           (.job { query := "a", result := none, status := "pending",
                   timestamp := refreshState.clock }),
         tasks := fun k => if k = "a"
             then some ⟨"a", refreshState.clock, false⟩
             else refreshState.tasks k,
         clock := refreshState.clock + 1 }) :=
  C5_force_refresh_replaces (fun s => s) 3000 "a" refreshState
    { query := "a", result := some "r", status := "completed",
      timestamp := 0, completed_at := some 1 }
    ⟨ops5, rfl⟩ (by decide) (Or.inl rfl)

/-- C9: on every reachable state, running a registered background task
to a successful completion writes a completed Job whose `completed_at`
is at least its `timestamp` (the `started_at` recorded when the Job was
created as pending, bound into the task handle at launch). -/
theorem C9_completed_at_ge_started_at (hash : String → String)
    (ttl : Nat) (st : EngineState) (key : String) (t : TaskEntry)
    (r : ApiResult) (hre : Reachable hash ttl st)
    (ht : st.tasks key = some t) :
    ∃ c : Nat,
      (step hash ttl st (.run key (.ok r))).cache key =
        some ⟨.job { query := t.query, result := some r,
                     status := "completed", timestamp := t.startTime,
                     completed_at := some c }, c⟩ ∧
      t.startTime ≤ c := by
  have hinv := Reachable_EngineInv hash ttl st hre
  obtain ⟨hd, hlt⟩ := hinv.tasksActive key t ht
  refine ⟨st.clock, ?_, Nat.le_of_lt hlt⟩
  simp [step, ht, hd, executeSearchBackground, hset]

/-- C9 witness data: the operation list that starts one search for
`"b"`. -/
def ops9 : List Op := [Op.start "b" false]

/-- C9 witness data: the state with one pending search for `"b"`. -/
def pendingState : EngineState :=
  List.foldl (step (fun s => s) 3000) initState ops9

/-- C9 witness: completing the pending search for `"b"` stores a
completed Job with `completed_at` at least `started_at`. -/
theorem C9_completed_at_ge_started_at_witness :
    ∃ c : Nat,
      (step (fun s => s) 3000 pendingState
          (.run "b" (.ok "res"))).cache "b" =
        some ⟨.job { query := "b", result := some "res",
                     status := "completed", timestamp := 0,
                     completed_at := some c }, c⟩ ∧
      0 ≤ c :=
  C9_completed_at_ge_started_at (fun s => s) 3000 pendingState "b"
    ⟨"b", 0, false⟩ "res" ⟨ops9, rfl⟩ (by decide)

/-- C8: a stored cache entry whose age exceeds the TTL behaves as absent
on read, and a subsequent `start()` for the same query (with no
unfinished in-flight execution for the key) treats the key as cold: a
fresh pending Job is written and a new background execution is
registered. -/
theorem C8_expired_entry_cold (hash : String → String) (ttl : Nat)
    (q : String) (st : EngineState) (e : CacheEntry)
    (he : st.cache (hash q) = some e)
    (hexp : ttl < st.clock - e.insertedAt)
    (htask : ∀ t, st.tasks (hash q) = some t → t.done = true) :
    hget st.cache st.clock ttl (hash q) = none ∧
    startSearch hash ttl q false st =
      ({ task_id := some (hash q), status := "pending",
         message := some "Search started successfully",
         from_cache := some false },
       { cache := hset st.cache st.clock (hash q)
           (.job { query := q, result := none, status := "pending",
                   timestamp := st.clock }),
         tasks := fun k => if k = hash q then some ⟨q, st.clock, false⟩
                  else st.tasks k,
         clock := st.clock + 1 }) := by
  have hg : hget st.cache st.clock ttl (hash q) = none := by
    simp only [hget, he]
    rw [if_neg (by omega)]
  refine ⟨hg, ?_⟩
  cases htk : st.tasks (hash q) with
  | none => simp [startSearch, hg, inflightCheck, htk, launchSearch]
  | some t =>
      have hd := htask t htk
      simp [startSearch, hg, inflightCheck, htk, hd, launchSearch]

/-- C8 witness data: a completed entry for `"a8"` written at time 0,
observed at clock 5 under a TTL of 2, with no in-flight task. -/
def expiredState : EngineState :=
  { cache := fun k => if k = "a8"
        then some ⟨.job { query := "a8", result := some "r8",
                          status := "completed", timestamp := 0,
                          completed_at := some 0 }, 0⟩
        else none,
    tasks := fun _ => none,
    clock := 5 }

/-- C8 witness: the expired entry reads as absent and `start` treats the
key as cold. -/
theorem C8_expired_entry_cold_witness :
    hget expiredState.cache expiredState.clock 2 "a8" = none ∧
    startSearch (fun s => s) 2 "a8" false expiredState =
      ({ task_id := some "a8", status := "pending",
         message := some "Search started successfully",
         from_cache := some false },
       { cache := hset expiredState.cache expiredState.clock "a8"
           (.job { query := "a8", result := none, status := "pending",
                   timestamp := expiredState.clock }),
         tasks := fun k => if k = "a8"
             then some ⟨"a8", expiredState.clock, false⟩
             else expiredState.tasks k,
         clock := expiredState.clock + 1 }) :=
  C8_expired_entry_cold (fun s => s) 2 "a8" expiredState
    ⟨.job { query := "a8", result := some "r8", status := "completed",
            timestamp := 0, completed_at := some 0 }, 0⟩
    (by decide) (by decide) (fun t h => Option.noConfusion h)

/-- Helper for C1: under the conditions that make the first call launch
(no fresh completed or malformed cache hit, no unfinished in-flight
task), `start_search` takes the launch tail. -/
theorem startSearch_launches (hash : String → String) (ttl : Nat)
    (q : String) (st : EngineState)
    (hcache : ∀ v, hget st.cache st.clock ttl (hash q) = some v →
        ∃ j, v = StoredVal.job j ∧ j.status ≠ "completed")
    (htask : ∀ t, st.tasks (hash q) = some t → t.done = true) :
    startSearch hash ttl q false st = launchSearch q (hash q) st := by
  have hifc : inflightCheck q (hash q) st = launchSearch q (hash q) st := by
    cases htk : st.tasks (hash q) with
    | none => simp [inflightCheck, htk]
    | some t => simp [inflightCheck, htk, htask t htk]
  cases hg : hget st.cache st.clock ttl (hash q) with
  | none => simp [startSearch, hg, hifc]
  | some v =>
      obtain ⟨j, rfl, hnc⟩ := hcache v hg
      simp [startSearch, hg, jsonLoads, hnc, hifc]

/-- C1: if the conditions of a fresh launch hold (which is exactly the
state in which the first `start(query)` call launches a background
execution), then the first call returns the digest as `task_id` with
status pending, and a second `start(query)` call made before the
launched execution has finished returns the same `task_id` with status
pending, changes no state, and leaves the single registered in-flight
handle in place — so the upstream computation is invoked at most once
for the key. -/
theorem C1_dedup (hash : String → String) (ttl : Nat) (q : String)
    (st : EngineState)
    (hcache : ∀ v, hget st.cache st.clock ttl (hash q) = some v →
        ∃ j, v = StoredVal.job j ∧ j.status ≠ "completed")
    (htask : ∀ t, st.tasks (hash q) = some t → t.done = true) :
    (startSearch hash ttl q false st).1.task_id = some (hash q) ∧
    (startSearch hash ttl q false st).1.status = "pending" ∧
    (startSearch hash ttl q false st).2.tasks (hash q) =
      some ⟨q, st.clock, false⟩ ∧
    startSearch hash ttl q false (startSearch hash ttl q false st).2 =
      ({ task_id := some (hash q), status := "pending",
         message := some "Search is already in progress",
         from_cache := some false },
       (startSearch hash ttl q false st).2) := by
  have h1 : startSearch hash ttl q false st = launchSearch q (hash q) st :=
    startSearch_launches hash ttl q st hcache htask
  have htk : (launchSearch q (hash q) st).2.tasks (hash q) =
      some ⟨q, st.clock, false⟩ := by
    simp [launchSearch]
  have hifc : inflightCheck q (hash q) (launchSearch q (hash q) st).2 =
      ({ task_id := some (hash q), status := "pending",
         message := some "Search is already in progress",
         from_cache := some false }, (launchSearch q (hash q) st).2) := by
    simp [inflightCheck, htk]
  have h2 : startSearch hash ttl q false (launchSearch q (hash q) st).2 =
      ({ task_id := some (hash q), status := "pending",
         message := some "Search is already in progress",
         from_cache := some false }, (launchSearch q (hash q) st).2) := by
    cases hg : hget (launchSearch q (hash q) st).2.cache
        (launchSearch q (hash q) st).2.clock ttl (hash q) with
    | none => simp [startSearch, hg, hifc]
    | some v =>
        have hv : v = StoredVal.job
            { query := q, result := none, status := "pending",
              timestamp := st.clock } := by
          simp only [launchSearch] at hg
          rw [hget_hset_self] at hg
          split at hg
          · simp only [Option.some.injEq] at hg
            exact hg.symm
          · exact Option.noConfusion hg
        subst hv
        simp [startSearch, hg, jsonLoads, hifc]
  rw [h1]
  exact ⟨rfl, rfl, htk, h2⟩

/-- C1 witness: two successive `start` calls for `"w1"` from the empty
initial state. -/
theorem C1_dedup_witness :
    (startSearch (fun s => s) 3000 "w1" false initState).1.task_id =
      some "w1" ∧
    (startSearch (fun s => s) 3000 "w1" false initState).1.status =
      "pending" ∧
    (startSearch (fun s => s) 3000 "w1" false initState).2.tasks "w1" =
      some ⟨"w1", 0, false⟩ ∧
    startSearch (fun s => s) 3000 "w1" false
        (startSearch (fun s => s) 3000 "w1" false initState).2 =
      ({ task_id := some "w1", status := "pending",
         message := some "Search is already in progress",
         from_cache := some false },
       (startSearch (fun s => s) 3000 "w1" false initState).2) :=
  C1_dedup (fun s => s) 3000 "w1" initState
    (fun _ h => Option.noConfusion h) (fun _ h => Option.noConfusion h)
